import Mathlib

/-!
Verification of the Pario reverse proxy core against its specification.

The Go source is shallowly embedded: each store is a pure state-passing
function, the request pipeline is a pure function from a request
environment (carrying the outcomes of external effects such as JSON
decoding and upstream HTTP calls) to an output record that captures the
response and every observable side effect.  Times are modelled as
integers (seconds); machine int64 values are modelled as `Int`.
-/

namespace Pario

/-! ## Cache store (pkg/cache/sqlite)

A row of `cache_entries`, keyed by (prompt_hash, model).  `ttlSeconds`
is the value of `int64(c.ttl.Seconds())` captured at Put time; the
model works at whole-second granularity. -/

structure CacheRow where
  response : String
  createdAt : Int
  ttlSeconds : Int
  deriving Repr, DecidableEq

/-- Cache state: the `cache_entries` table plus the in-process
hit/miss counters. -/
structure CacheState where
  entries : List ((String × String) × CacheRow)
  hits : Int
  misses : Int
  deriving Repr, DecidableEq

def CacheState.lookup (st : CacheState) (promptHash model : String) : Option CacheRow :=
  (st.entries.find? (fun e => e.1.1 == promptHash && e.1.2 == model)).map (·.2)

/-- Model of `Cache.Get`: read the row keyed by (hash, model); absent or
`now - created_at > ttl` is a miss, otherwise a hit returning the
stored bytes. -/
def CacheState.Get (st : CacheState) (promptHash model : String) (now : Int) :
    Option String × CacheState :=
  match st.lookup promptHash model with
  | none => (none, { st with misses := st.misses + 1 })
  | some row =>
    if now - row.createdAt > row.ttlSeconds then
      (none, { st with misses := st.misses + 1 })
    else
      (some row.response, { st with hits := st.hits + 1 })

/-- Model of `Cache.Put`: `INSERT OR REPLACE` keyed by (hash, model) with
`created_at = now` and the configured default TTL. -/
def CacheState.Put (st : CacheState) (promptHash model response : String)
    (now ttlCfg : Int) : CacheState :=
  { st with entries :=
      st.entries.filter (fun e => !(e.1.1 == promptHash && e.1.2 == model)) ++
        [((promptHash, model), ⟨response, now, ttlCfg⟩)] }

/-! ## Budget enforcer (pkg/budget) -/

/-- A UTC instant at the granularity the enforcer observes:
calendar date plus seconds into the day. -/
structure DateTime where
  year : Int
  month : Int
  day : Int
  sec : Int
  deriving Repr, DecidableEq

/-- Lexicographic order on instants. -/
def DateTime.le (a b : DateTime) : Bool :=
  if a.year != b.year then a.year < b.year
  else if a.month != b.month then a.month < b.month
  else if a.day != b.day then a.day < b.day
  else a.sec ≤ b.sec

inductive BudgetPeriod where
  | daily
  | monthly
  deriving Repr, DecidableEq

structure BudgetPolicy where
  apiKey : String
  model : String
  maxTokens : Int
  period : BudgetPeriod
  deriving Repr, DecidableEq

/-- A `usage_records` row, in the shape the budget queries consume. -/
structure URec where
  apiKey : String
  model : String
  totalTokens : Int
  createdAt : DateTime
  deriving Repr, DecidableEq

/-- Model of `periodStart`: daily starts at 00:00:00 UTC today, monthly at the
first of the current UTC month. -/
def periodStart (period : BudgetPeriod) (now : DateTime) : DateTime :=
  match period with
  | .monthly => ⟨now.year, now.month, 1, 0⟩
  | .daily => ⟨now.year, now.month, now.day, 0⟩

/-- Model of `SQLiteTracker.TotalByKey`: sum of total_tokens filtered by api_key
and `created_at >= since`. -/
def TotalByKey (store : List URec) (apiKey : String) (since : DateTime) : Int :=
  ((store.filter (fun r => r.apiKey == apiKey && (since.le r.createdAt))).map
    (·.totalTokens)).sum

/-- Model of `SQLiteTracker.TotalByKeyAndModel`: as `TotalByKey` with an
additional model filter. -/
def TotalByKeyAndModel (store : List URec) (apiKey model : String)
    (since : DateTime) : Int :=
  ((store.filter (fun r =>
      r.apiKey == apiKey && r.model == model && (since.le r.createdAt))).map
    (·.totalTokens)).sum

/-- Model of `Enforcer.applicablePolicies`: wildcard-or-exact key match and
empty-or-exact model match. -/
def applicablePolicies (policies : List BudgetPolicy) (apiKey model : String) :
    List BudgetPolicy :=
  policies.filter (fun p =>
    (p.apiKey == "*" || p.apiKey == apiKey) && (p.model == "" || p.model == model))

inductive CheckOutcome where
  | ok
  | budgetExceeded
  deriving Repr, DecidableEq

/-- Tokens consumed under a policy, per the enforcer's two queries. -/
def policyUsed (store : List URec) (now : DateTime) (apiKey : String)
    (p : BudgetPolicy) : Int :=
  if p.model != "" then
    TotalByKeyAndModel store apiKey p.model (periodStart p.period now)
  else
    TotalByKey store apiKey (periodStart p.period now)

def checkLoop (store : List URec) (now : DateTime) (apiKey : String) :
    List BudgetPolicy → CheckOutcome
  | [] => .ok
  | p :: ps =>
    if policyUsed store now apiKey p ≥ p.maxTokens then .budgetExceeded
    else checkLoop store now apiKey ps

/-- Model of `Enforcer.Check` on an error-free usage store: fail with
budget-exceeded on the first applicable policy whose period sum
reaches max_tokens. -/
def Check (policies : List BudgetPolicy) (store : List URec) (now : DateTime)
    (apiKey model : String) : CheckOutcome :=
  checkLoop store now apiKey (applicablePolicies policies apiKey model)

/-- The sum the claim describes: total_tokens of records for this
api-key, restricted by the policy's model filter, since the period
start. -/
def claimUsed (store : List URec) (now : DateTime) (apiKey : String)
    (p : BudgetPolicy) : Int :=
  ((store.filter (fun r =>
      r.apiKey == apiKey && (p.model == "" || r.model == p.model) &&
        ((periodStart p.period now).le r.createdAt))).map
    (·.totalTokens)).sum

theorem policyUsed_eq_claimUsed (store : List URec) (now : DateTime)
    (apiKey : String) (p : BudgetPolicy) :
    policyUsed store now apiKey p = claimUsed store now apiKey p := by
  unfold policyUsed claimUsed TotalByKey TotalByKeyAndModel
  by_cases h : p.model = ""
  · simp [h]
  · simp only [h, bne_iff_ne, ne_eq, not_false_iff, if_true, beq_iff_eq]
    congr 2
    apply List.filter_congr
    intro r _
    have hb : (p.model == "") = false := by simpa [beq_iff_eq] using h
    rw [Bool.and_assoc, Bool.and_assoc, hb, Bool.false_or]

theorem checkLoop_exceeded_iff (store : List URec) (now : DateTime)
    (apiKey : String) (l : List BudgetPolicy) :
    checkLoop store now apiKey l = .budgetExceeded ↔
      ∃ p ∈ l, policyUsed store now apiKey p ≥ p.maxTokens := by
  induction l with
  | nil => simp [checkLoop]
  | cons p ps ih =>
    by_cases h : policyUsed store now apiKey p ≥ p.maxTokens
    · simp [checkLoop, h]
    · simp [checkLoop, h, ih]

end Pario

namespace Pario

/-! ## Router (pkg/router) -/

structure ProviderConfig where
  name : String
  url : String
  apiKey : String
  deriving Repr, DecidableEq

structure RouteTarget where
  provider : String
  model : String
  deriving Repr, DecidableEq

structure RouteConfig where
  model : String
  targets : List RouteTarget
  deriving Repr, DecidableEq

structure RouterConfig where
  providers : List ProviderConfig
  routes : List RouteConfig
  deriving Repr, DecidableEq

structure Route where
  provider : ProviderConfig
  model : String
  deriving Repr, DecidableEq

/-- The `providerIndex` map of `Router.Resolve`, built by iterating
the provider list and assigning `providerIndex[p.Name] = p`: a later
provider with an already-seen name overwrites the earlier entry. -/
def providerIndex (providers : List ProviderConfig) : String → Option ProviderConfig :=
  providers.foldl (fun m p => fun n => if n == p.name then some p else m n)
    (fun _ => none)

def targetRoutes (idx : String → Option ProviderConfig) (requestedModel : String) :
    List RouteTarget → List Route
  | [] => []
  | target :: rest =>
    match idx target.provider with
    | none => targetRoutes idx requestedModel rest
    | some provider =>
      let model := if target.model == "" then requestedModel else target.model
      ⟨provider, model⟩ :: targetRoutes idx requestedModel rest

def resolveRoutes (idx : String → Option ProviderConfig) (requestedModel : String)
    (providers : List ProviderConfig) : List RouteConfig → Option (List Route)
  | [] =>
    match providers with
    | [] => none
    | p :: _ => some [⟨p, requestedModel⟩]
  | route :: rest =>
    if route.model == requestedModel then
      match targetRoutes idx requestedModel route.targets with
      | [] => none
      | routes => some routes
    else resolveRoutes idx requestedModel providers rest

/-- Model of `Router.Resolve`: fail on an empty provider list; scan the alias
entries for the first whose model equals the request; emit its
resolvable targets in order (failing when all are unknown); with no
matching alias, emit providers[0] with the requested model. -/
def Resolve (cfg : RouterConfig) (requestedModel : String) : Option (List Route) :=
  if cfg.providers.isEmpty then none
  else resolveRoutes (providerIndex cfg.providers) requestedModel cfg.providers cfg.routes

/-- A configuration whose provider list has two providers with the
same name, and an alias whose single target references that name. -/
def dupCfg : RouterConfig :=
  { providers := [⟨"p", "u1", "k1"⟩, ⟨"p", "u2", "k2"⟩],
    routes := [⟨"fast", [⟨"p", "m"⟩]⟩] }

theorem providerIndex_preserve (l : List ProviderConfig) (pn : String)
    (v : Option ProviderConfig) (hl : ∀ q ∈ l, q.name ≠ pn)
    (m : String → Option ProviderConfig) (hm : m pn = v) :
    (List.foldl (fun m p => fun n => if n == p.name then some p else m n) m l) pn = v := by
  induction l generalizing m with
  | nil => simpa using hm
  | cons q qs ih =>
    have hq : q.name ≠ pn := hl q (by simp)
    rw [List.foldl_cons]
    apply ih (fun r hr => hl r (List.mem_cons_of_mem _ hr))
    have hne : (pn == q.name) = false :=
      beq_eq_false_iff_ne.mpr (fun h => hq h.symm)
    simp [hne, hm]

theorem providerIndex_append_last (ps₁ : List ProviderConfig) (p : ProviderConfig)
    (ps₂ : List ProviderConfig) (hfresh : ∀ q ∈ ps₂, q.name ≠ p.name) :
    providerIndex (ps₁ ++ p :: ps₂) p.name = some p := by
  unfold providerIndex
  rw [List.foldl_append, List.foldl_cons]
  apply providerIndex_preserve ps₂ p.name (some p) hfresh
  simp

end Pario

namespace Pario

/-! ## Audit logger (pkg/audit)

`created_at` and the api-key hash columns are carried verbatim from
the entry and never filtered, so they are elided from the row;
`json.Marshal` of the header map is a deterministic opaque
serialization, modelled by `marshalHeaders`. -/

structure AuditEntry where
  requestID : String
  model : String
  sessionID : String
  provider : String
  requestBody : String
  responseBody : String
  requestHeaders : Option (List (String × String))
  statusCode : Int
  promptTokens : Int
  completionTokens : Int
  totalTokens : Int
  deriving Repr, DecidableEq

structure AuditRow where
  requestID : String
  model : String
  sessionID : String
  provider : String
  requestBody : String
  responseBody : String
  requestHeaders : String
  statusCode : Int
  promptTokens : Int
  completionTokens : Int
  totalTokens : Int
  deriving Repr, DecidableEq

structure AuditCfg where
  includeSet : List String
  excludeModels : List String
  maxBodySize : Int
  deriving Repr, DecidableEq

def marshalHeaders (hs : List (String × String)) : String :=
  String.intercalate "," (hs.map (fun kv => kv.1 ++ ":" ++ kv.2))

/-- The row `Logger.Log` builds: apply the include-set filter, then
truncate both bodies at `max_body_size` when it is positive. -/
def processRow (cfg : AuditCfg) (entry : AuditEntry) : AuditRow :=
  let reqBody := if cfg.includeSet.contains "prompts" then entry.requestBody else ""
  let respBody := if cfg.includeSet.contains "responses" then entry.responseBody else ""
  let headersJSON :=
    if cfg.includeSet.contains "metadata" then
      match entry.requestHeaders with
      | some hs => marshalHeaders hs
      | none => ""
    else ""
  let reqBody :=
    if cfg.maxBodySize > 0 && (reqBody.length : Int) > cfg.maxBodySize then
      reqBody.take cfg.maxBodySize.toNat
    else reqBody
  let respBody :=
    if cfg.maxBodySize > 0 && (respBody.length : Int) > cfg.maxBodySize then
      respBody.take cfg.maxBodySize.toNat
    else respBody
  ⟨entry.requestID, entry.model, entry.sessionID, entry.provider,
    reqBody, respBody, headersJSON, entry.statusCode,
    entry.promptTokens, entry.completionTokens, entry.totalTokens⟩

/-- Model of `Logger.Log`: drop entries whose model is excluded; otherwise
`INSERT OR REPLACE` keyed by request id. -/
def Log (cfg : AuditCfg) (store : List AuditRow) (entry : AuditEntry) : List AuditRow :=
  if cfg.excludeModels.contains entry.model then store
  else
    store.filter (fun r => !(r.requestID == entry.requestID)) ++ [processRow cfg entry]

def logAll (cfg : AuditCfg) (store : List AuditRow) (es : List AuditEntry) :
    List AuditRow :=
  es.foldl (Log cfg) store

/-- The last call whose entry survives the exclude filter. -/
def lastKept (cfg : AuditCfg) (es : List AuditEntry) : Option AuditEntry :=
  (es.filter (fun e => !(cfg.excludeModels.contains e.model))).getLast?

theorem log_keys_nodup (cfg : AuditCfg) (store : List AuditRow) (e : AuditEntry)
    (h : (store.map (·.requestID)).Nodup) :
    ((Log cfg store e).map (·.requestID)).Nodup := by
  unfold Log
  by_cases hex : cfg.excludeModels.contains e.model = true
  · rw [if_pos hex]
    exact h
  · rw [if_neg hex]
    rw [List.map_append, List.map_singleton]
    rw [List.nodup_append]
    refine ⟨?_, List.nodup_singleton _, ?_⟩
    · exact h.sublist (List.Sublist.map _ (List.filter_sublist store))
    · intro a ha
      simp only [List.mem_map] at ha
      obtain ⟨r, hr, hra⟩ := ha
      have := (List.mem_filter.mp hr).2
      simp only [Bool.not_eq_true', beq_eq_false_iff_ne, ne_eq] at this
      simp only [List.mem_singleton]
      intro hae
      exact this (hra.trans hae)

theorem logAll_snoc (cfg : AuditCfg) (store : List AuditRow)
    (es : List AuditEntry) (e : AuditEntry) :
    logAll cfg store (es ++ [e]) = Log cfg (logAll cfg store es) e := by
  unfold logAll
  rw [List.foldl_append]
  rfl

theorem lastKept_snoc_excluded (cfg : AuditCfg) (es : List AuditEntry)
    (e : AuditEntry) (hex : cfg.excludeModels.contains e.model = true) :
    lastKept cfg (es ++ [e]) = lastKept cfg es := by
  unfold lastKept
  rw [List.filter_append]
  have hmem : e.model ∈ cfg.excludeModels := by simpa using hex
  have hdrop : List.filter (fun x => !(cfg.excludeModels.contains x.model)) [e] = [] := by
    simp [hmem]
  rw [hdrop, List.append_nil]

theorem lastKept_snoc_kept (cfg : AuditCfg) (es : List AuditEntry)
    (e : AuditEntry) (hex : ¬ cfg.excludeModels.contains e.model = true) :
    lastKept cfg (es ++ [e]) = some e := by
  unfold lastKept
  rw [List.filter_append]
  have hmem : e.model ∉ cfg.excludeModels := by simpa using hex
  have hkeep : List.filter (fun x => !(cfg.excludeModels.contains x.model)) [e] = [e] := by
    simp [hmem]
  rw [hkeep, List.getLast?_append_cons]
  rfl

theorem logAll_empty_id (cfg : AuditCfg) (es : List AuditEntry)
    (hall : ∀ e ∈ es, e.requestID = "") :
    logAll cfg [] es =
      (match lastKept cfg es with
        | none => ([] : List AuditRow)
        | some e => [processRow cfg e]) := by
  induction es using List.reverseRecOn with
  | nil => rfl
  | append_singleton es e ih =>
    have hall' : ∀ x ∈ es, x.requestID = "" :=
      fun x hx => hall x (List.mem_append_left _ hx)
    have he : e.requestID = "" := hall e (List.mem_append_right _ (by simp))
    rw [logAll_snoc, ih hall']
    by_cases hex : cfg.excludeModels.contains e.model = true
    · rw [lastKept_snoc_excluded cfg es e hex]
      unfold Log
      rw [if_pos hex]
    · rw [lastKept_snoc_kept cfg es e hex]
      unfold Log
      rw [if_neg hex]
      cases hlk : lastKept cfg es with
      | none => rfl
      | some e' =>
        have he' : e'.requestID = "" := by
          have hmemLast := List.mem_getLast?_eq_getLast (Option.mem_def.mpr hlk)
          obtain ⟨hne, heq⟩ := hmemLast
          have hmem : e' ∈ es.filter (fun x => !(cfg.excludeModels.contains x.model)) :=
            heq ▸ List.getLast_mem hne
          exact hall' e' (List.mem_of_mem_filter hmem)
        have hrow : (processRow cfg e').requestID = "" := he'
        simp only [List.filter_cons, List.filter_nil, hrow, he, beq_self_eq_true,
          Bool.not_true, Bool.false_eq_true, if_false]
        rfl

end Pario

/-- C9 counterexample: with exclude_models = ["m2"], logging entry e1
(model "m1") then entry e2 (model "m2"), both with empty request id,
leaves one row whose model is "m1" — the fields of the FIRST call, not
of the latest call as the claim states. -/
theorem audit_latest_call_counterexample :
    (Pario.logAll ⟨["prompts", "responses"], ["m2"], 0⟩ []
        [⟨"", "m1", "", "openai", "q", "r", none, 200, 1, 2, 3⟩,
         ⟨"", "m2", "", "openai", "q2", "r2", none, 200, 4, 5, 9⟩]).map (·.model) =
      ["m1"] ∧ ("m1" : String) ≠ "m2" := by
  exact ⟨by decide, by decide⟩

/-- C9 amended: `Log` is a keyed overwrite, so the audit store never
holds two rows with the same request id, and a sequence of Log calls
that all carry an empty request id leaves at most one row, its fields
taken from the latest call whose model is NOT in exclude_models
(excluded calls leave the store unchanged). -/
theorem audit_keyed_overwrite (cfg : Pario.AuditCfg) :
    (∀ (store : List Pario.AuditRow) (e : Pario.AuditEntry),
      (store.map (·.requestID)).Nodup →
        ((Pario.Log cfg store e).map (·.requestID)).Nodup) ∧
    (∀ es : List Pario.AuditEntry, (∀ e ∈ es, e.requestID = "") →
      Pario.logAll cfg [] es =
        (match Pario.lastKept cfg es with
          | none => ([] : List Pario.AuditRow)
          | some e => [Pario.processRow cfg e]) ∧
      (Pario.logAll cfg [] es).length ≤ 1) := by
  refine ⟨Pario.log_keys_nodup cfg, fun es hall => ?_⟩
  have h := Pario.logAll_empty_id cfg es hall
  refine ⟨h, ?_⟩
  rw [h]
  cases Pario.lastKept cfg es <;> simp

/-- C9 amended, witness: the two-call sequence from the
counterexample, instantiating the keyed-overwrite theorem. -/
theorem audit_keyed_overwrite_witness :
    Pario.logAll ⟨["prompts", "responses"], ["m2"], 0⟩ []
        [⟨"", "m1", "", "openai", "q", "r", none, 200, 1, 2, 3⟩,
         ⟨"", "m2", "", "openai", "q2", "r2", none, 200, 4, 5, 9⟩] =
      [Pario.processRow ⟨["prompts", "responses"], ["m2"], 0⟩
        ⟨"", "m1", "", "openai", "q", "r", none, 200, 1, 2, 3⟩] ∧
    (Pario.logAll ⟨["prompts", "responses"], ["m2"], 0⟩ []
        [⟨"", "m1", "", "openai", "q", "r", none, 200, 1, 2, 3⟩,
         ⟨"", "m2", "", "openai", "q2", "r2", none, 200, 4, 5, 9⟩]).length ≤ 1 :=
  (audit_keyed_overwrite ⟨["prompts", "responses"], ["m2"], 0⟩).2
    [⟨"", "m1", "", "openai", "q", "r", none, 200, 1, 2, 3⟩,
     ⟨"", "m2", "", "openai", "q2", "r2", none, 200, 4, 5, 9⟩]
    (by decide)

namespace Pario

/-! ## Usage tracker sessions (pkg/tracker)

`generateSessionID` draws a fresh random id; the model draws ids from
a supply indexed by a counter.  The `sessions` primary key makes the
insert fail when a drawn id already exists, which `ResolveSession`
surfaces as an error (`none`). -/

structure SessRow where
  id : String
  apiKey : String
  startedAt : Int
  lastActivity : Int
  requestCount : Int
  totalTokens : Int
  deriving Repr, DecidableEq

/-- A `usage_records` row as the tracker writes it. -/
structure TrURec where
  apiKey : String
  model : String
  sessionID : String
  promptTokens : Int
  completionTokens : Int
  totalTokens : Int
  createdAt : Int
  deriving Repr, DecidableEq

structure TrState where
  records : List TrURec
  sessions : List SessRow
  ctr : Nat
  deriving Repr, DecidableEq

def initTrState : TrState := ⟨[], [], 0⟩

/-- Model of `ORDER BY last_activity DESC LIMIT 1`: the maximal row by
last_activity (ties broken by the substrate; the model keeps the
earliest row among ties). -/
def maxByLA : List SessRow → Option SessRow
  | [] => none
  | r :: rs =>
    match maxByLA rs with
    | none => some r
    | some b => if r.lastActivity ≥ b.lastActivity then some r else some b

def mostRecent (rows : List SessRow) (key : String) : Option SessRow :=
  maxByLA (rows.filter (fun s => s.apiKey == key))

/-- Creating a session row with a freshly drawn id; a primary-key
collision is a storage error. -/
def newSession (supply : Nat → String) (st : TrState) (apiKey : String)
    (now : Int) : Option (String × TrState) :=
  let nid := supply st.ctr
  if st.sessions.any (fun s => s.id == nid) then none
  else
    some (nid,
      { st with sessions := st.sessions ++ [⟨nid, apiKey, now, now, 0, 0⟩],
                ctr := st.ctr + 1 })

/-- Model of `SQLiteTracker.ResolveSession`: an explicit id is upserted with
`ON CONFLICT DO NOTHING` and returned; otherwise the most recent
session for the key is reused when `now - last_activity ≤ gapTimeout`,
else a fresh session is created. -/
def ResolveSession (supply : Nat → String) (st : TrState)
    (apiKey explicitID : String) (gapTimeout now : Int) :
    Option (String × TrState) :=
  if explicitID != "" then
    if st.sessions.any (fun s => s.id == explicitID) then some (explicitID, st)
    else
      some (explicitID,
        { st with sessions := st.sessions ++ [⟨explicitID, apiKey, now, now, 0, 0⟩] })
  else
    match mostRecent st.sessions apiKey with
    | some s =>
      if now - s.lastActivity ≤ gapTimeout then some (s.id, st)
      else newSession supply st apiKey now
    | none => newSession supply st apiKey now

/-- The session-counter update `Record` performs on the row matching
the record's session id. -/
def bumpRow (s : SessRow) (rec : TrURec) : SessRow :=
  { s with lastActivity := rec.createdAt,
           requestCount := s.requestCount + 1,
           totalTokens := s.totalTokens + rec.totalTokens }

/-- Model of `SQLiteTracker.Record`: append the usage row; when its session id
is set, bump that session's counters and move last_activity to the
record's creation time. -/
def Record (st : TrState) (rec : TrURec) : TrState :=
  let st1 : TrState := { st with records := st.records ++ [rec] }
  if rec.sessionID != "" then
    { st1 with sessions := st1.sessions.map (fun s =>
        if s.id == rec.sessionID then bumpRow s rec else s) }
  else st1

/-- The usage row the pipeline records for an accounted request at
time t (token counts are irrelevant to session grouping). -/
def streamRec (key sid : String) (t : Int) : TrURec := ⟨key, "", sid, 0, 0, 0, t⟩

/-- One pipeline request with no explicit session header: resolve the
session, then record usage against it. -/
def step (supply : Nat → String) (st : TrState) (key : String) (gap t : Int) :
    Option (String × TrState) :=
  match ResolveSession supply st key "" gap t with
  | none => none
  | some (sid, st1) => some (sid, Record st1 (streamRec key sid t))

/-- A stream of accounted requests at the given times. -/
def processStream (supply : Nat → String) (st : TrState) (key : String)
    (gap : Int) : List Int → Option (TrState × List String)
  | [] => some (st, [])
  | t :: ts =>
    match step supply st key gap t with
    | none => none
    | some (sid, st2) =>
      match processStream supply st2 key gap ts with
      | none => none
      | some (st3, sids) => some (st3, sid :: sids)

/-- Walk invariant: after a request at time tprev returned sid, the
sid row is the strictly most recent session of the key, and every
session row belongs to the key. -/
def Inv (st : TrState) (key sid : String) (tprev : Int) : Prop :=
  sid ≠ "" ∧
  ∃ cur, cur ∈ st.sessions ∧ cur.id = sid ∧ cur.apiKey = key ∧
    cur.lastActivity = tprev ∧
    (∀ s ∈ st.sessions, s.apiKey = key) ∧
    (∀ s ∈ st.sessions, s = cur ∨ (s.id ≠ sid ∧ s.lastActivity < tprev))

theorem maxByLA_mem (l : List SessRow) (b : SessRow) (h : maxByLA l = some b) :
    b ∈ l := by
  induction l with
  | nil => simp [maxByLA] at h
  | cons r rs ih =>
    simp only [maxByLA] at h
    cases hm : maxByLA rs with
    | none =>
      rw [hm] at h
      injection h with h
      exact h ▸ List.mem_cons_self r rs
    | some c =>
      rw [hm] at h
      dsimp only at h
      by_cases hge : r.lastActivity ≥ c.lastActivity
      · rw [if_pos hge] at h
        injection h with h
        exact h ▸ List.mem_cons_self r rs
      · rw [if_neg hge] at h
        injection h with h
        exact List.mem_cons_of_mem _ (ih (h ▸ hm))

theorem maxByLA_dominant (l : List SessRow) (cur : SessRow) (hmem : cur ∈ l)
    (hdom : ∀ s ∈ l, s = cur ∨ s.lastActivity < cur.lastActivity) :
    maxByLA l = some cur := by
  induction l with
  | nil => simp at hmem
  | cons r rs ih =>
    simp only [maxByLA]
    by_cases hrc : r = cur
    · subst hrc
      cases hm : maxByLA rs with
      | none => rfl
      | some b =>
        have hb : b ∈ rs := maxByLA_mem rs b hm
        dsimp only
        rcases hdom b (List.mem_cons_of_mem _ hb) with h | h
        · rw [h, if_pos (le_refl _)]
        · rw [if_pos (le_of_lt h)]
    · have hlt : r.lastActivity < cur.lastActivity := by
        rcases hdom r (List.mem_cons_self r rs) with h | h
        · exact absurd h hrc
        · exact h
      have hcurrs : cur ∈ rs := by
        rcases List.mem_cons.mp hmem with h | h
        · exact absurd h.symm hrc
        · exact h
      rw [ih hcurrs (fun s hs => hdom s (List.mem_cons_of_mem _ hs))]
      dsimp only
      rw [if_neg (not_le.mpr hlt)]

theorem mostRecent_of_inv (st : TrState) (key sid : String) (tprev : Int)
    (hInv : Inv st key sid tprev) :
    ∃ cur, mostRecent st.sessions key = some cur ∧ cur ∈ st.sessions ∧
      cur.id = sid ∧ cur.apiKey = key ∧ cur.lastActivity = tprev ∧
      (∀ s ∈ st.sessions, s.apiKey = key) ∧
      (∀ s ∈ st.sessions, s = cur ∨ (s.id ≠ sid ∧ s.lastActivity < tprev)) := by
  obtain ⟨-, cur, hmem, hid, hkey, hla, hall, hdom⟩ := hInv
  refine ⟨cur, ?_, hmem, hid, hkey, hla, hall, hdom⟩
  unfold mostRecent
  have hfilter : st.sessions.filter (fun s => s.apiKey == key) = st.sessions := by
    apply List.filter_eq_self.mpr
    intro s hs
    simp [hall s hs]
  rw [hfilter]
  apply maxByLA_dominant st.sessions cur hmem
  intro s hs
  rcases hdom s hs with h | h
  · exact Or.inl h
  · exact Or.inr (hla ▸ h.2)

theorem record_inv (st : TrState) (key sid : String) (t : Int) (hsid : sid ≠ "")
    (cur : SessRow) (hmem : cur ∈ st.sessions) (hid : cur.id = sid)
    (hkey : cur.apiKey = key) (hall : ∀ s ∈ st.sessions, s.apiKey = key)
    (hdom : ∀ s ∈ st.sessions, s = cur ∨ (s.id ≠ sid ∧ s.lastActivity < t)) :
    Inv (Record st (streamRec key sid t)) key sid t := by
  have hbne : ((streamRec key sid t).sessionID != "") = true := bne_iff_ne.mpr hsid
  unfold Record
  rw [hbne]
  simp only [if_true]
  refine ⟨hsid, ⟨bumpRow cur (streamRec key sid t), ?_, hid, hkey, rfl, ?_, ?_⟩⟩
  · have hfc : (fun s : SessRow =>
        if s.id == (streamRec key sid t).sessionID then
          bumpRow s (streamRec key sid t) else s) cur =
        bumpRow cur (streamRec key sid t) := by
      have hb : (cur.id == (streamRec key sid t).sessionID) = true := by
        simpa [streamRec] using hid
      simp only [hb, if_true]
    exact hfc ▸ List.mem_map_of_mem _ hmem
  · intro s hs
    rcases List.mem_map.mp hs with ⟨s₀, hs₀, rfl⟩
    by_cases hb : (s₀.id == (streamRec key sid t).sessionID) = true
    · rw [if_pos hb]
      exact hall s₀ hs₀
    · rw [if_neg hb]
      exact hall s₀ hs₀
  · intro s hs
    rcases List.mem_map.mp hs with ⟨s₀, hs₀, rfl⟩
    rcases hdom s₀ hs₀ with h | ⟨hid0, hla0⟩
    · subst h
      left
      have hb : (s₀.id == (streamRec key sid t).sessionID) = true := by
        simpa [streamRec] using hid
      simp only [hb, if_true]
    · right
      have hb : (s₀.id == (streamRec key sid t).sessionID) = false := by
        simpa [streamRec] using hid0
      rw [if_neg (by simp [hb])]
      exact ⟨hid0, hla0⟩

theorem step_ok (supply : Nat → String) (hsup : ∀ n, supply n ≠ "")
    (st : TrState) (key sid : String)
    (tprev gap t : Int) (hInv : Inv st key sid tprev) (hle : tprev ≤ t)
    (hgap : 0 ≤ gap) (sid' : String) (st2 : TrState)
    (hstep : step supply st key gap t = some (sid', st2)) :
    ((sid' = sid) ↔ (t - tprev ≤ gap)) ∧ Inv st2 key sid' t := by
  have hsidne : sid ≠ "" := hInv.1
  obtain ⟨cur, hmr, hmem, hid, hkey, hla, hall, hdom⟩ :=
    mostRecent_of_inv st key sid tprev hInv
  unfold step ResolveSession at hstep
  rw [bne_self_eq_false] at hstep
  simp only [Bool.false_eq_true, if_false] at hstep
  rw [hmr] at hstep
  dsimp only at hstep
  by_cases hcase : t - cur.lastActivity ≤ gap
  · rw [if_pos hcase] at hstep
    dsimp only at hstep
    injection hstep with hpair
    obtain ⟨hsid', hst2⟩ := Prod.mk.inj hpair
    subst hsid'
    subst hst2
    constructor
    · rw [hid]
      exact ⟨fun _ => hla ▸ hcase, fun _ => rfl⟩
    · rw [hid]
      apply record_inv st key sid t hsidne cur hmem hid hkey hall
      intro s hs
      rcases hdom s hs with h | ⟨h1, h2⟩
      · exact Or.inl h
      · exact Or.inr ⟨h1, lt_of_lt_of_le h2 hle⟩
  · rw [if_neg hcase] at hstep
    unfold newSession at hstep
    by_cases hany : (st.sessions.any (fun s => s.id == supply st.ctr)) = true
    · simp [hany] at hstep
    · rw [Bool.not_eq_true] at hany
      simp only [hany, Bool.false_eq_true, if_false, Option.some.injEq,
        Prod.mk.injEq] at hstep
      obtain ⟨hsid', hst2⟩ := hstep
      subst hsid'
      subst hst2
      have hfresh : ∀ s ∈ st.sessions, s.id ≠ supply st.ctr := by
        intro s hs
        have := List.any_eq_false.mp hany s hs
        simpa using this
      have hnidne : supply st.ctr ≠ sid := by
        intro h
        exact hfresh cur hmem (hid.trans h.symm)
      have htlt : tprev < t := by omega
      constructor
      · constructor
        · intro h
          exact absurd h hnidne
        · intro h
          exact absurd (hla ▸ h) hcase
      · apply record_inv _ key (supply st.ctr) t (hsup st.ctr)
          ⟨supply st.ctr, key, t, t, 0, 0⟩
        · exact List.mem_append_right _ (by simp)
        · rfl
        · rfl
        · intro s hs
          rcases List.mem_append.mp hs with h | h
          · exact hall s h
          · rw [List.mem_singleton.mp h]
        · intro s hs
          rcases List.mem_append.mp hs with h | h
          · right
            refine ⟨hfresh s h, ?_⟩
            rcases hdom s h with h' | ⟨-, h2⟩
            · rw [h', hla]
              exact htlt
            · omega
          · left
            exact List.mem_singleton.mp h

/-- Adjacent-request property relative to the previous request at
tprev with session sp: each request reuses the previous id exactly
when the gap is within gapTimeout. -/
def adjOk (gap : Int) : Int → String → List Int → List String → Prop
  | _, _, [], [] => True
  | tp, sp, t :: ts, s :: ss => ((s = sp) ↔ (t - tp ≤ gap)) ∧ adjOk gap t s ts ss
  | _, _, [], _ :: _ => False
  | _, _, _ :: _, [] => False

theorem adjOk_length (gap : Int) :
    ∀ (ts : List Int) (ss : List String) (tp : Int) (sp : String),
      adjOk gap tp sp ts ss → ss.length = ts.length := by
  intro ts
  induction ts with
  | nil =>
    intro ss tp sp h
    cases ss with
    | nil => rfl
    | cons s ss => exact absurd h (by simp [adjOk])
  | cons t ts ih =>
    intro ss tp sp h
    cases ss with
    | nil => exact absurd h (by simp [adjOk])
    | cons s ss => simpa using ih ss t s h.2

theorem processStream_adj (supply : Nat → String) (hsup : ∀ n, supply n ≠ "")
    (key : String) (gap : Int) (hgap : 0 ≤ gap) :
    ∀ (ts : List Int) (st : TrState) (sid : String) (tprev : Int),
      Inv st key sid tprev → List.Chain (· ≤ ·) tprev ts →
      ∀ (st' : TrState) (sids : List String),
        processStream supply st key gap ts = some (st', sids) →
        adjOk gap tprev sid ts sids := by
  intro ts
  induction ts with
  | nil =>
    intro st sid tprev _ _ st' sids hrun
    simp only [processStream, Option.some.injEq, Prod.mk.injEq] at hrun
    rw [← hrun.2]
    trivial
  | cons t ts ih =>
    intro st sid tprev hInv hchain st' sids hrun
    simp only [processStream] at hrun
    cases hstep : step supply st key gap t with
    | none => rw [hstep] at hrun; simp at hrun
    | some p =>
      obtain ⟨sid1, st2⟩ := p
      rw [hstep] at hrun
      dsimp only at hrun
      cases hrest : processStream supply st2 key gap ts with
      | none => rw [hrest] at hrun; simp at hrun
      | some q =>
        obtain ⟨st3, sids'⟩ := q
        rw [hrest] at hrun
        dsimp only at hrun
        obtain ⟨-, hsids⟩ := Prod.mk.inj (Option.some.inj hrun)
        subst hsids
        have hchain' : List.Chain (· ≤ ·) t ts := (List.chain_cons.mp hchain).2
        have hle : tprev ≤ t := (List.chain_cons.mp hchain).1
        obtain ⟨hiff, hInv'⟩ :=
          step_ok supply hsup st key sid tprev gap t hInv hle hgap sid1 st2 hstep
        exact ⟨hiff, ih st2 sid1 t hInv' hchain' st3 sids' hrest⟩

theorem adjOk_getD (gap : Int) :
    ∀ (ts : List Int) (ss : List String) (tp : Int) (sp : String),
      adjOk gap tp sp ts ss →
      ∀ i, i + 1 < (tp :: ts).length →
        ((sp :: ss).getD (i + 1) "" = (sp :: ss).getD i "" ↔
          (tp :: ts).getD (i + 1) 0 - (tp :: ts).getD i 0 ≤ gap) := by
  intro ts
  induction ts with
  | nil =>
    intro ss tp sp h i hi
    simp at hi
  | cons t ts ih =>
    intro ss tp sp h i hi
    cases ss with
    | nil => exact absurd h (by simp [adjOk])
    | cons s ss =>
      obtain ⟨hiff, hrest⟩ := h
      cases i with
      | zero => simpa using hiff
      | succ j =>
        have hj : j + 1 < (t :: ts).length := by
          simpa using Nat.lt_of_succ_lt_succ hi
        simpa using ih ss t s hrest j hj

end Pario

/-- C6: for a single api-key never supplying an explicit session id,
with requests at nondecreasing times each resolved through
`ResolveSession` and then recorded (as the pipeline does for accounted
requests), the returned ids partition the stream into contiguous
groups: adjacent requests at most gap_timeout apart get the same id,
adjacent requests more than gap_timeout apart get different ids. -/
theorem session_partition (supply : Nat → String) (hsup : ∀ n, supply n ≠ "")
    (key : String) (gap : Int) (hgap : 0 ≤ gap) (ts : List Int)
    (hchain : List.Chain' (· ≤ ·) ts) (st' : Pario.TrState) (sids : List String)
    (hrun : Pario.processStream supply Pario.initTrState key gap ts =
      some (st', sids)) :
    sids.length = ts.length ∧
    ∀ i, i + 1 < ts.length →
      (sids.getD (i + 1) "" = sids.getD i "" ↔
        ts.getD (i + 1) 0 - ts.getD i 0 ≤ gap) := by
  cases ts with
  | nil =>
    simp only [Pario.processStream, Option.some.injEq, Prod.mk.injEq] at hrun
    rw [← hrun.2]
    exact ⟨rfl, by intro i hi; simp at hi⟩
  | cons t ts =>
    simp only [Pario.processStream] at hrun
    cases hstep : Pario.step supply Pario.initTrState key gap t with
    | none => rw [hstep] at hrun; simp at hrun
    | some p =>
      obtain ⟨sid1, st2⟩ := p
      rw [hstep] at hrun
      dsimp only at hrun
      cases hrest : Pario.processStream supply st2 key gap ts with
      | none => rw [hrest] at hrun; simp at hrun
      | some q =>
        obtain ⟨st3, sids'⟩ := q
        rw [hrest] at hrun
        dsimp only at hrun
        obtain ⟨-, hsids⟩ := Prod.mk.inj (Option.some.inj hrun)
        subst hsids
        have hfirst : Pario.step supply Pario.initTrState key gap t =
            some (supply 0, Pario.Record
              ⟨[], [⟨supply 0, key, t, t, 0, 0⟩], 1⟩
              (Pario.streamRec key (supply 0) t)) := by
          simp [Pario.step, Pario.ResolveSession, Pario.mostRecent,
            Pario.maxByLA, Pario.newSession, Pario.initTrState]
        rw [hfirst] at hstep
        obtain ⟨hsid1, hst2⟩ := Prod.mk.inj (Option.some.inj hstep)
        have hInv1 : Pario.Inv st2 key sid1 t := by
          rw [← hst2, ← hsid1]
          apply Pario.record_inv _ key (supply 0) t (hsup 0)
            ⟨supply 0, key, t, t, 0, 0⟩ (by simp) rfl rfl
          · intro s hs
            rw [List.mem_singleton.mp hs]
          · intro s hs
            left
            exact List.mem_singleton.mp hs
        have hchain1 : List.Chain (· ≤ ·) t ts := hchain
        have hadj := Pario.processStream_adj supply hsup key gap hgap ts st2 sid1 t
          hInv1 hchain1 st3 sids' hrest
        constructor
        · simp [Pario.adjOk_length gap ts sids' t sid1 hadj]
        · exact Pario.adjOk_getD gap ts sids' t sid1 hadj

namespace Pario

/-! ## Request pipeline (pkg/proxy)

The handlers are embedded as pure functions over a request
environment carrying the outcomes of the external effects (header
values, body read, JSON decode results, cache lookup, budget check,
per-route upstream outcomes).  A `none` upstream outcome is a
transport error; `some` carries the HTTP result and what
`json.Unmarshal` would yield on its body. -/

structure Usage where
  promptTokens : Int
  completionTokens : Int
  totalTokens : Int
  deriving Repr, DecidableEq

structure ChatResp where
  model : String
  usage : Option Usage
  deriving Repr, DecidableEq

structure AnthUsage where
  inputTokens : Int
  outputTokens : Int
  deriving Repr, DecidableEq

/-- Model of `AnthropicUsage.ToUsage`. -/
def AnthUsage.ToUsage (u : AnthUsage) : Usage :=
  ⟨u.inputTokens, u.outputTokens, u.inputTokens + u.outputTokens⟩

structure AnthResp where
  model : String
  usage : Option AnthUsage
  deriving Repr, DecidableEq

/-- One upstream HTTP result: status, body bytes, response headers,
and the decode outcomes of the body under each dialect's schema. -/
structure UpResult where
  statusCode : Nat
  body : String
  header : List (String × String)
  decodedChat : Option ChatResp
  decodedAnth : Option AnthResp
  deriving Repr, DecidableEq

/-- Model of `isRetryable`: a transport error, or an HTTP status ≥ 500. -/
def isRetryable (err : Bool) (statusCode : Nat) : Bool :=
  if err then true else decide (statusCode ≥ 500)

/-- The buffered fallback loop over per-route outcomes, threading the
retained result (`nil` at entry): a transport error retains nothing
and advances; a 5xx is retained and advances; anything else stops. -/
def runAttempts : List (Option UpResult) → Option UpResult → Option UpResult
  | [], result => result
  | none :: rest, result =>
    if isRetryable true 0 then runAttempts rest result else result
  | some res :: rest, _result =>
    if isRetryable false res.statusCode then runAttempts rest (some res)
    else some res

/-- Routes the loop actually calls upstream for. -/
def retryableOutcome : Option UpResult → Bool
  | none => isRetryable true 0
  | some res => isRetryable false res.statusCode

def numTried : List (Option UpResult) → Nat
  | [] => 0
  | a :: rest => if retryableOutcome a then numTried rest + 1 else 1

def attemptStatuses (l : List (Option UpResult)) : List Nat :=
  l.filterMap (fun a => a.map (·.statusCode))

/-- The claim's description of the relayed status: the first status
below 500 in route order, else the last 5xx, else 502. -/
def specFinalStatus (l : List (Option UpResult)) : Nat :=
  match (attemptStatuses l).find? (fun s => decide (s < 500)) with
  | some s => s
  | none =>
    match (attemptStatuses l).getLast? with
    | some s => s
    | none => 502

/-- The status the handler relays: 502 when the loop retained
nothing, otherwise the retained result's status. -/
def loopFinalStatus (l : List (Option UpResult)) : Nat :=
  match runAttempts l none with
  | none => 502
  | some res => res.statusCode

theorem getLast?_cons_match {α : Type} (a : α) (l : List α) :
    (a :: l).getLast? =
      (match l.getLast? with
        | some x => some x
        | none => some a) := by
  cases l with
  | nil => rfl
  | cons b l' =>
    rw [List.getLast?_cons_cons]
    cases hl : (b :: l').getLast? with
    | none => exact absurd hl (by simp)
    | some x => rfl

theorem runAttempts_status (l : List (Option UpResult)) :
    ∀ acc : Option UpResult,
      (runAttempts l acc).map (·.statusCode) =
        (match (attemptStatuses l).find? (fun s => decide (s < 500)) with
          | some s => some s
          | none =>
            match (attemptStatuses l).getLast? with
            | some s => some s
            | none => acc.map (·.statusCode)) := by
  induction l with
  | nil => intro acc; rfl
  | cons a rest ih =>
    intro acc
    cases a with
    | none =>
      have hstat : attemptStatuses (none :: rest) = attemptStatuses rest := by
        simp [attemptStatuses]
      rw [hstat]
      simpa [runAttempts, isRetryable] using ih acc
    | some res =>
      have hstat : attemptStatuses (some res :: rest) =
          res.statusCode :: attemptStatuses rest := by
        simp [attemptStatuses]
      rw [hstat]
      by_cases h5 : res.statusCode ≥ 500
      · have hretry : isRetryable false res.statusCode = true := by
          simp [isRetryable, h5]
        have hfind : (res.statusCode :: attemptStatuses rest).find?
            (fun s => decide (s < 500)) =
            (attemptStatuses rest).find? (fun s => decide (s < 500)) := by
          rw [List.find?_cons_of_neg]
          simp
          omega
        rw [hfind]
        have hlhs : runAttempts (some res :: rest) acc = runAttempts rest (some res) := by
          simp [runAttempts, hretry]
        rw [hlhs, ih (some res)]
        cases hf : (attemptStatuses rest).find? (fun s => decide (s < 500)) with
        | some s => rfl
        | none =>
          rw [getLast?_cons_match]
          cases hl : (attemptStatuses rest).getLast? with
          | some s => rfl
          | none => rfl
      · have hretry : isRetryable false res.statusCode = false := by
          simp [isRetryable]
          omega
        have hlhs : runAttempts (some res :: rest) acc = some res := by
          simp [runAttempts, hretry]
        rw [hlhs]
        rw [List.find?_cons_of_pos]
        · rfl
        · simp
          omega

theorem numTried_pos (l : List (Option UpResult)) (h : l ≠ []) :
    1 ≤ numTried l := by
  cases l with
  | nil => exact absurd rfl h
  | cons a rest =>
    unfold numTried
    by_cases hr : retryableOutcome a = true
    · rw [if_pos hr]; omega
    · rw [if_neg hr]

theorem tried_iff (l : List (Option UpResult)) :
    ∀ i, i + 1 < l.length →
      ((i + 1 < numTried l) ↔
        (i < numTried l ∧ retryableOutcome (l.getD i none) = true)) := by
  induction l with
  | nil => intro i hi; simp at hi
  | cons a rest ih =>
    intro i hi
    cases i with
    | zero =>
      by_cases hr : retryableOutcome a = true
      · simp only [numTried, hr, if_true, List.getD_cons_zero]
        have hrest : rest ≠ [] := by
          intro h
          rw [h] at hi
          simp at hi
        have h1 := numTried_pos rest hrest
        simp [hr]
        omega
      · simp only [numTried, hr, if_false, List.getD_cons_zero]
        simp [hr]
    | succ j =>
      by_cases hr : retryableOutcome a = true
      · simp only [numTried, hr, if_true, List.getD_cons_succ]
        have hj : j + 1 < rest.length := by
          simp at hi
          omega
        have hrec := ih j hj
        rw [show (j + 1 + 1 < numTried rest + 1) ↔ (j + 1 < numTried rest) by omega,
          show (j + 1 < numTried rest + 1) ↔ (j < numTried rest) by omega]
        exact hrec
      · have hrf : Pario.retryableOutcome a = false := by
          cases hb : Pario.retryableOutcome a
          · rfl
          · exact absurd hb hr
        simp only [numTried, hrf, Bool.false_eq_true, if_false]
        exact ⟨fun h => absurd h (by omega), fun h => absurd h.1 (by omega)⟩

end Pario

namespace Pario

/-! ## The dialect handlers -/

inductive BudgetResult where
  | ok
  | exceeded
  | storageError
  deriving Repr, DecidableEq

structure CostLabel where
  team : String
  project : String
  env : String
  deriving Repr, DecidableEq

/-- The decoded request fields the handler reads (`model`, `stream`;
the message list only feeds the cache hash, whose lookup outcome the
environment carries). -/
structure ChatReq where
  model : String
  stream : Bool
  deriving Repr, DecidableEq

structure AnthReq where
  model : String
  stream : Bool
  deriving Repr, DecidableEq

/-- What `streamSSEResponse` accumulated: usage, the model seen in
stream events, and the relayed body text. -/
structure StreamAccum where
  usage : Option Usage
  model : String
  body : String
  deriving Repr, DecidableEq

/-- The UsageRecord the pipeline hands to the tracker (the
`time.Now()` creation stamp is elided). -/
structure UsageRecord where
  apiKey : String
  model : String
  sessionID : String
  promptTokens : Int
  completionTokens : Int
  totalTokens : Int
  team : String
  project : String
  envLabel : String
  deriving Repr, DecidableEq

/-- The audit entry the handler composes (key-hash columns elided:
they are a pure function of the client key). -/
structure AuditOut where
  requestID : String
  model : String
  sessionID : String
  provider : String
  requestBody : String
  responseBody : String
  statusCode : Nat
  promptTokens : Int
  completionTokens : Int
  totalTokens : Int
  deriving Repr, DecidableEq

/-- Request environment: header values and the outcomes of every
external effect the handler consults. -/
structure ReqEnv where
  method : String
  authorization : String
  xApiKey : String
  xTeam : String
  xProject : String
  xEnv : String
  xRequestID : String
  bodyOk : Bool
  body : String
  decodedChat : Option ChatReq
  decodedAnth : Option AnthReq
  cacheEnabled : Bool
  cacheGet : Option String
  enforcerEnabled : Bool
  budget : BudgetResult
  routes : Option (List (Option UpResult))
  sessionID : String
  keyLabels : List (String × CostLabel)
  auditorEnabled : Bool
  streamAccum : Option StreamAccum
  deriving Repr, DecidableEq

/-- Everything the handler writes or triggers. -/
structure HandlerOut where
  status : Nat
  body : String
  cacheHeader : Option String
  sessionHeader : Option String
  budgetChecked : Bool
  upstreamCalls : Nat
  usageRecorded : Option UsageRecord
  cachePutModel : Option String
  auditLogged : Option AuditOut
  viaJSONError : Bool
  streamed : Bool
  deriving Repr, DecidableEq

/-- Model of `extractAPIKey`: the Authorization header wins whenever it starts
with "Bearer "; the rest of that header (the 7 leading characters
dropped) is the key, and only otherwise is x-api-key consulted.
`strings.HasPrefix` and `strings.TrimPrefix` are modelled on the
character sequences. -/
def extractAPIKey (authorization xApiKey : String) : String :=
  if "Bearer ".data.isPrefixOf authorization.data then
    String.mk (authorization.data.drop 7)
  else if xApiKey != "" then xApiKey
  else ""

/-- Model of `resolveLabels`: headers first; the key_labels fallback applies
only when all three headers are empty. -/
def resolveLabels (env : ReqEnv) (clientKey : String) :
    String × String × String :=
  let team := env.xTeam
  let project := env.xProject
  let envL := env.xEnv
  if team == "" && project == "" && envL == "" then
    match env.keyLabels.lookup clientKey with
    | some labels => (labels.team, labels.project, labels.env)
    | none => (team, project, envL)
  else (team, project, envL)

/-- Model of `writeJSONError`: the canonical error envelope (body condensed to
the message; the JSON wrapper carries no further information). -/
def writeJSONError (code : Nat) (message : String) : HandlerOut :=
  { status := code, body := message, cacheHeader := none,
    sessionHeader := none, budgetChecked := false, upstreamCalls := 0,
    usageRecorded := none, cachePutModel := none, auditLogged := none,
    viaJSONError := true, streamed := false }

/-- The cache-hit short circuit: stored bytes, `X-Pario-Cache: hit`,
and nothing else happens. -/
def cacheHitOut (cached : String) : HandlerOut :=
  { status := 200, body := cached, cacheHeader := some "hit",
    sessionHeader := none, budgetChecked := false, upstreamCalls := 0,
    usageRecorded := none, cachePutModel := none, auditLogged := none,
    viaJSONError := false, streamed := false }

def mkUsageRecord (clientKey model : String) (env : ReqEnv) (u : Usage) :
    UsageRecord :=
  ⟨clientKey, model, env.sessionID, u.promptTokens, u.completionTokens,
    u.totalTokens, (resolveLabels env clientKey).1,
    (resolveLabels env clientKey).2.1, (resolveLabels env clientKey).2.2⟩

def auditTokens : Option UsageRecord → Int × Int × Int
  | some r => (r.promptTokens, r.completionTokens, r.totalTokens)
  | none => (0, 0, 0)

/-- Streaming acceptance: transport error or 5xx moves on, any other
status is relayed. -/
def streamAccept : List (Option UpResult) → Option UpResult
  | [] => none
  | none :: rest => streamAccept rest
  | some res :: rest =>
    if res.statusCode ≥ 500 then streamAccept rest else some res

def streamTried : List (Option UpResult) → Nat
  | [] => 0
  | none :: rest => streamTried rest + 1
  | some res :: rest =>
    if res.statusCode ≥ 500 then streamTried rest + 1 else 1

/-- Model of `handleStreamingOpenAI` / `handleStreamingAnthropic` (identical
shape but for the provider tag): accepted stream relayed with the
upstream status, usage recorded from the accumulated stream events,
audit response body truncated at 8192. -/
def handleStreaming (env : ReqEnv) (clientKey provider : String)
    (routes : List (Option UpResult)) : HandlerOut :=
  match streamAccept routes with
  | none =>
    { writeJSONError 502 "all upstream providers failed" with
        budgetChecked := env.enforcerEnabled,
        upstreamCalls := streamTried routes, streamed := true }
  | some res =>
    let usageRec : Option UsageRecord :=
      match env.streamAccum with
      | some acc =>
        match acc.usage with
        | some u => some (mkUsageRecord clientKey acc.model env u)
        | none => none
      | none => none
    let auditOut : Option AuditOut :=
      if env.auditorEnabled then
        match env.streamAccum with
        | some acc =>
          some ⟨env.xRequestID, acc.model, env.sessionID, provider, env.body,
            acc.body.take 8192, res.statusCode,
            (auditTokens usageRec).1, (auditTokens usageRec).2.1,
            (auditTokens usageRec).2.2⟩
        | none => none
      else none
    { status := res.statusCode,
      body := (match env.streamAccum with
        | some acc => acc.body
        | none => ""),
      cacheHeader := none,
      sessionHeader := if env.sessionID != "" then some env.sessionID else none,
      budgetChecked := env.enforcerEnabled,
      upstreamCalls := streamTried routes,
      usageRecorded := usageRec,
      cachePutModel := none,
      auditLogged := auditOut,
      viaJSONError := false,
      streamed := true }

/-- The buffered tail of `handleChatCompletions` after the fallback
loop retained `res`. -/
def chatRelay (env : ReqEnv) (clientKey : String) (req : ChatReq)
    (routes : List (Option UpResult)) (res : UpResult) : HandlerOut :=
  let usageRec : Option UsageRecord :=
    if res.statusCode == 200 then
      match res.decodedChat with
      | some cr =>
        match cr.usage with
        | some u => some (mkUsageRecord clientKey cr.model env u)
        | none => none
      | none => none
    else none
  let cachePutM : Option String :=
    if res.statusCode == 200 then
      match res.decodedChat with
      | some cr =>
        match cr.usage with
        | some _ => if env.cacheEnabled then some req.model else none
        | none => none
      | none => none
    else none
  let auditOut : Option AuditOut :=
    if env.auditorEnabled then
      some ⟨env.xRequestID, req.model, env.sessionID, "openai", env.body,
        res.body, res.statusCode, (auditTokens usageRec).1,
        (auditTokens usageRec).2.1, (auditTokens usageRec).2.2⟩
    else none
  { status := res.statusCode, body := res.body,
    cacheHeader := some "miss",
    sessionHeader := if env.sessionID != "" then some env.sessionID else none,
    budgetChecked := env.enforcerEnabled,
    upstreamCalls := numTried routes,
    usageRecorded := usageRec,
    cachePutModel := cachePutM,
    auditLogged := auditOut,
    viaJSONError := false,
    streamed := false }

def chatAfterBudget (env : ReqEnv) (clientKey : String) (req : ChatReq) :
    HandlerOut :=
  match env.routes with
  | none =>
    { writeJSONError 502 "no providers available" with
        budgetChecked := env.enforcerEnabled }
  | some routes =>
    if req.stream then handleStreaming env clientKey "openai" routes
    else
      match runAttempts routes none with
      | none =>
        { writeJSONError 502 "all upstream providers failed" with
            budgetChecked := env.enforcerEnabled,
            upstreamCalls := numTried routes }
      | some res => chatRelay env clientKey req routes res

def chatAfterCache (env : ReqEnv) (clientKey : String) (req : ChatReq) :
    HandlerOut :=
  if env.enforcerEnabled then
    match env.budget with
    | .exceeded =>
      { writeJSONError 429 "token budget exceeded" with budgetChecked := true }
    | .storageError =>
      { writeJSONError 500 "budget check failed" with budgetChecked := true }
    | .ok => chatAfterBudget env clientKey req
  else chatAfterBudget env clientKey req

/-- Model of `Server.handleChatCompletions`, buffered pipeline (with the
`clientKey` local inlined). -/
def handleChatCompletions (env : ReqEnv) : HandlerOut :=
  if env.method != "POST" then writeJSONError 405 "method not allowed"
  else if extractAPIKey env.authorization env.xApiKey == "" then
    writeJSONError 401 "missing API key"
  else if !env.bodyOk then writeJSONError 400 "failed to read request body"
  else
    match env.decodedChat with
    | none => writeJSONError 400 "invalid request body"
    | some req =>
      if env.cacheEnabled && !req.stream then
        match env.cacheGet with
        | some cached => cacheHitOut cached
        | none =>
          chatAfterCache env (extractAPIKey env.authorization env.xApiKey) req
      else chatAfterCache env (extractAPIKey env.authorization env.xApiKey) req

/-- The buffered tail of `handleMessages`: the Anthropic response
usage is converted through `ToUsage`, the recorded model is the one
echoed in the Anthropic response. -/
def messagesRelay (env : ReqEnv) (clientKey : String) (req : AnthReq)
    (routes : List (Option UpResult)) (res : UpResult) : HandlerOut :=
  let usageRec : Option UsageRecord :=
    if res.statusCode == 200 then
      match res.decodedAnth with
      | some ar =>
        match ar.usage with
        | some au => some (mkUsageRecord clientKey ar.model env au.ToUsage)
        | none => none
      | none => none
    else none
  let cachePutM : Option String :=
    if res.statusCode == 200 then
      match res.decodedAnth with
      | some ar =>
        match ar.usage with
        | some _ => if env.cacheEnabled then some req.model else none
        | none => none
      | none => none
    else none
  let auditOut : Option AuditOut :=
    if env.auditorEnabled then
      some ⟨env.xRequestID, req.model, env.sessionID, "anthropic", env.body,
        res.body, res.statusCode, (auditTokens usageRec).1,
        (auditTokens usageRec).2.1, (auditTokens usageRec).2.2⟩
    else none
  { status := res.statusCode, body := res.body,
    cacheHeader := some "miss",
    sessionHeader := if env.sessionID != "" then some env.sessionID else none,
    budgetChecked := env.enforcerEnabled,
    upstreamCalls := numTried routes,
    usageRecorded := usageRec,
    cachePutModel := cachePutM,
    auditLogged := auditOut,
    viaJSONError := false,
    streamed := false }

def messagesAfterBudget (env : ReqEnv) (clientKey : String) (req : AnthReq) :
    HandlerOut :=
  match env.routes with
  | none =>
    { writeJSONError 502 "no providers available" with
        budgetChecked := env.enforcerEnabled }
  | some routes =>
    if req.stream then handleStreaming env clientKey "anthropic" routes
    else
      match runAttempts routes none with
      | none =>
        { writeJSONError 502 "all upstream providers failed" with
            budgetChecked := env.enforcerEnabled,
            upstreamCalls := numTried routes }
      | some res => messagesRelay env clientKey req routes res

def messagesAfterCache (env : ReqEnv) (clientKey : String) (req : AnthReq) :
    HandlerOut :=
  if env.enforcerEnabled then
    match env.budget with
    | .exceeded =>
      { writeJSONError 429 "token budget exceeded" with budgetChecked := true }
    | .storageError =>
      { writeJSONError 500 "budget check failed" with budgetChecked := true }
    | .ok => messagesAfterBudget env clientKey req
  else messagesAfterBudget env clientKey req

/-- Model of `Server.handleMessages`, buffered pipeline (with the `clientKey`
local inlined). -/
def handleMessages (env : ReqEnv) : HandlerOut :=
  if env.method != "POST" then writeJSONError 405 "method not allowed"
  else if extractAPIKey env.authorization env.xApiKey == "" then
    writeJSONError 401 "missing API key"
  else if !env.bodyOk then writeJSONError 400 "failed to read request body"
  else
    match env.decodedAnth with
    | none => writeJSONError 400 "invalid request body"
    | some req =>
      if env.cacheEnabled && !req.stream then
        match env.cacheGet with
        | some cached => cacheHitOut cached
        | none =>
          messagesAfterCache env (extractAPIKey env.authorization env.xApiKey) req
      else messagesAfterCache env (extractAPIKey env.authorization env.xApiKey) req

/-- A neutral request environment for concrete instantiations. -/
def baseEnv : ReqEnv :=
  { method := "POST", authorization := "", xApiKey := "", xTeam := "",
    xProject := "", xEnv := "", xRequestID := "", bodyOk := true, body := "",
    decodedChat := none, decodedAnth := none, cacheEnabled := false,
    cacheGet := none, enforcerEnabled := false, budget := .ok, routes := none,
    sessionID := "", keyLabels := [], auditorEnabled := false,
    streamAccum := none }

theorem handleChat_to_afterCache (env : ReqEnv) (req : ChatReq)
    (hm : env.method = "POST")
    (hk : extractAPIKey env.authorization env.xApiKey ≠ "")
    (hb : env.bodyOk = true) (hd : env.decodedChat = some req)
    (hmiss : env.cacheEnabled = false ∨ env.cacheGet = none) :
    handleChatCompletions env =
      chatAfterCache env (extractAPIKey env.authorization env.xApiKey) req := by
  have hk' : (extractAPIKey env.authorization env.xApiKey == "") = false :=
    beq_eq_false_iff_ne.mpr hk
  unfold handleChatCompletions
  simp only [hm, bne_self_eq_false, Bool.false_eq_true, if_false, hk', hb,
    Bool.not_true, hd]
  rcases hmiss with h | h
  · rw [h]
    rfl
  · rw [h]
    split <;> rfl

theorem handleMessages_to_afterCache (env : ReqEnv) (req : AnthReq)
    (hm : env.method = "POST")
    (hk : extractAPIKey env.authorization env.xApiKey ≠ "")
    (hb : env.bodyOk = true) (hd : env.decodedAnth = some req)
    (hmiss : env.cacheEnabled = false ∨ env.cacheGet = none) :
    handleMessages env =
      messagesAfterCache env (extractAPIKey env.authorization env.xApiKey) req := by
  have hk' : (extractAPIKey env.authorization env.xApiKey == "") = false :=
    beq_eq_false_iff_ne.mpr hk
  unfold handleMessages
  simp only [hm, bne_self_eq_false, Bool.false_eq_true, if_false, hk', hb,
    Bool.not_true, hd]
  rcases hmiss with h | h
  · rw [h]
    rfl
  · rw [h]
    split <;> rfl

theorem afterCache_to_afterBudget (env : ReqEnv) (ck : String) (req : ChatReq)
    (hbud : env.enforcerEnabled = false ∨ env.budget = .ok) :
    chatAfterCache env ck req = chatAfterBudget env ck req := by
  unfold chatAfterCache
  rcases hbud with h | h
  · simp [h]
  · rw [h]
    split <;> rfl

theorem messagesAfterCache_to_afterBudget (env : ReqEnv) (ck : String)
    (req : AnthReq) (hbud : env.enforcerEnabled = false ∨ env.budget = .ok) :
    messagesAfterCache env ck req = messagesAfterBudget env ck req := by
  unfold messagesAfterCache
  rcases hbud with h | h
  · simp [h]
  · rw [h]
    split <;> rfl

end Pario

/-- C1: in the buffered fallback loop, route i+1 is tried exactly when
route i was tried and yielded a transport error or status ≥ 500; the
relayed status equals the first status below 500 in route order, else
the last retained 5xx, else 502; and on any buffered chat request that
reaches the loop, the handler's response status is exactly that. -/
theorem fallback_selection (l : List (Option Pario.UpResult)) :
    Pario.loopFinalStatus l = Pario.specFinalStatus l ∧
    (∀ i, i + 1 < l.length →
      ((i + 1 < Pario.numTried l) ↔
        (i < Pario.numTried l ∧ Pario.retryableOutcome (l.getD i none) = true))) ∧
    (∀ (env : Pario.ReqEnv) (req : Pario.ChatReq), env.method = "POST" →
      Pario.extractAPIKey env.authorization env.xApiKey ≠ "" →
      env.bodyOk = true → env.decodedChat = some req → req.stream = false →
      (env.cacheEnabled = false ∨ env.cacheGet = none) →
      (env.enforcerEnabled = false ∨ env.budget = .ok) →
      env.routes = some l →
      (Pario.handleChatCompletions env).status = Pario.loopFinalStatus l) := by
  refine ⟨?_, Pario.tried_iff l, ?_⟩
  case refine_2 =>
    intro env req hm hk hb hd hs hmiss hbud hr
    rw [Pario.handleChat_to_afterCache env req hm hk hb hd hmiss,
      Pario.afterCache_to_afterBudget env _ req hbud]
    unfold Pario.chatAfterBudget
    rw [hr]
    dsimp only
    rw [hs]
    simp only [Bool.false_eq_true, if_false]
    unfold Pario.loopFinalStatus
    cases hrun : Pario.runAttempts l none with
    | none => rfl
    | some res => rfl
  have h := Pario.runAttempts_status l none
  unfold Pario.loopFinalStatus Pario.specFinalStatus
  cases hr : Pario.runAttempts l none with
  | none =>
    rw [hr] at h
    cases hf : (Pario.attemptStatuses l).find? (fun s => decide (s < 500)) with
    | some s => rw [hf] at h; simp at h
    | none =>
      rw [hf] at h
      cases hl : (Pario.attemptStatuses l).getLast? with
      | some s => rw [hl] at h; simp at h
      | none => rfl
  | some res =>
    rw [hr] at h
    cases hf : (Pario.attemptStatuses l).find? (fun s => decide (s < 500)) with
    | some s =>
      rw [hf] at h
      simpa using h
    | none =>
      rw [hf] at h
      cases hl : (Pario.attemptStatuses l).getLast? with
      | some s =>
        rw [hl] at h
        simpa using h
      | none =>
        rw [hl] at h
        simp at h

/-- The C1 witness route list: 500, transport error, 404, 200. -/
def c1routes : List (Option Pario.UpResult) :=
  [some ⟨500, "a", [], none, none⟩, none, some ⟨404, "b", [], none, none⟩,
    some ⟨200, "c", [], none, none⟩]

/-- A concrete buffered chat request whose routes are `c1routes`. -/
def c1env : Pario.ReqEnv :=
  { Pario.baseEnv with
      authorization := "Bearer k"
      decodedChat := some ⟨"gpt-4", false⟩
      routes := some c1routes }

/-- C1 witness: those routes relay 404 (the first status below 500),
route 1 is tried because route 0 was retryable, and the handler's
response status on a request with those routes is 404. -/
theorem fallback_selection_witness :
    Pario.loopFinalStatus c1routes = 404 ∧
    ((0 + 1 < Pario.numTried c1routes) ↔
      (0 < Pario.numTried c1routes ∧
        Pario.retryableOutcome (c1routes.getD 0 none) = true)) ∧
    (Pario.handleChatCompletions c1env).status = 404 := by
  refine ⟨(fallback_selection c1routes).1.trans (by decide),
    (fallback_selection c1routes).2.1 0 (by decide), ?_⟩
  have h := (fallback_selection c1routes).2.2 c1env ⟨"gpt-4", false⟩
    rfl (by decide) rfl rfl rfl (Or.inr rfl) (Or.inl rfl) rfl
  exact h.trans (by decide)


/-- C3: a non-streaming dialect request (on either dialect route) that
hits the cache gets the stored bytes with X-Pario-Cache: hit and
nothing else: no budget check, no upstream call, no UsageRecord, no
cache Put, no audit entry (`cacheHitOut` is exactly that output). -/
theorem cache_hit_bypasses_pipeline (env : Pario.ReqEnv) (req : Pario.ChatReq)
    (reqA : Pario.AnthReq) (bytes : String)
    (hm : env.method = "POST")
    (hk : Pario.extractAPIKey env.authorization env.xApiKey ≠ "")
    (hb : env.bodyOk = true)
    (hd : env.decodedChat = some req) (hs : req.stream = false)
    (hdA : env.decodedAnth = some reqA) (hsA : reqA.stream = false)
    (hc : env.cacheEnabled = true) (hg : env.cacheGet = some bytes) :
    Pario.handleChatCompletions env = Pario.cacheHitOut bytes ∧
    Pario.handleMessages env = Pario.cacheHitOut bytes := by
  have hk' : (Pario.extractAPIKey env.authorization env.xApiKey == "") = false :=
    beq_eq_false_iff_ne.mpr hk
  constructor
  · unfold Pario.handleChatCompletions
    simp only [hm, bne_self_eq_false, Bool.false_eq_true, if_false, hk', hb,
      Bool.not_true, hd, hs, hc, hg, Bool.not_false, Bool.and_true, if_true]
  · unfold Pario.handleMessages
    simp only [hm, bne_self_eq_false, Bool.false_eq_true, if_false, hk', hb,
      Bool.not_true, hdA, hsA, hc, hg, Bool.not_false, Bool.and_true, if_true]

/-- A concrete environment hitting the cache on both dialect routes. -/
def c3env : Pario.ReqEnv :=
  { Pario.baseEnv with
      authorization := "Bearer k"
      decodedChat := some ⟨"gpt-4", false⟩
      decodedAnth := some ⟨"claude", false⟩
      cacheEnabled := true
      cacheGet := some "resp" }

/-- C3 witness: the concrete cache-hit environment. -/
theorem cache_hit_bypasses_pipeline_witness :
    Pario.handleChatCompletions c3env = Pario.cacheHitOut "resp" ∧
    Pario.handleMessages c3env = Pario.cacheHitOut "resp" :=
  cache_hit_bypasses_pipeline c3env ⟨"gpt-4", false⟩ ⟨"claude", false⟩ "resp"
    rfl (by decide) rfl rfl rfl rfl rfl rfl rfl

theorem Pario.handleStreaming_iff (env : Pario.ReqEnv) (ck prov : String)
    (routes : List (Option Pario.UpResult)) :
    ((Pario.handleStreaming env ck prov routes).cacheHeader = some "hit" ∨
      (Pario.handleStreaming env ck prov routes).cacheHeader = some "miss") ↔
    ((Pario.handleStreaming env ck prov routes).viaJSONError = false ∧
      (Pario.handleStreaming env ck prov routes).streamed = false) := by
  unfold Pario.handleStreaming
  split <;> simp [Pario.writeJSONError]

theorem Pario.chat_header_iff (env : Pario.ReqEnv) :
    ((Pario.handleChatCompletions env).cacheHeader = some "hit" ∨
      (Pario.handleChatCompletions env).cacheHeader = some "miss") ↔
    ((Pario.handleChatCompletions env).viaJSONError = false ∧
      (Pario.handleChatCompletions env).streamed = false) := by
  unfold Pario.handleChatCompletions Pario.chatAfterCache Pario.chatAfterBudget
  repeat' split
  all_goals
    first
      | exact Pario.handleStreaming_iff _ _ _ _
      | simp [Pario.writeJSONError, Pario.cacheHitOut, Pario.chatRelay]

theorem Pario.messages_header_iff (env : Pario.ReqEnv) :
    ((Pario.handleMessages env).cacheHeader = some "hit" ∨
      (Pario.handleMessages env).cacheHeader = some "miss") ↔
    ((Pario.handleMessages env).viaJSONError = false ∧
      (Pario.handleMessages env).streamed = false) := by
  unfold Pario.handleMessages Pario.messagesAfterCache Pario.messagesAfterBudget
  repeat' split
  all_goals
    first
      | exact Pario.handleStreaming_iff _ _ _ _
      | simp [Pario.writeJSONError, Pario.cacheHitOut, Pario.messagesRelay]

/-- C8 counterexample: a request without any api-key header on the
chat route gets the proxy's own 401 envelope, which carries NO
X-Pario-Cache header at all (neither "hit" nor "miss"), contradicting
the claim that every dialect-route response carries it. -/
theorem cache_header_always_set_counterexample :
    (Pario.handleChatCompletions Pario.baseEnv).status = 401 ∧
    (Pario.handleChatCompletions Pario.baseEnv).cacheHeader ≠ some "hit" ∧
    (Pario.handleChatCompletions Pario.baseEnv).cacheHeader ≠ some "miss" := by
  exact ⟨by decide, by decide, by decide⟩

/-- C8 amended: on both dialect routes, X-Pario-Cache is set (to "hit"
or "miss") exactly on the responses that are a cache-hit short circuit
or a buffered upstream relay; proxy-originated error envelopes
(401/400/405/429/500/502) and streaming responses carry no
X-Pario-Cache header. -/
theorem cache_header_exactly_on_hit_or_relay (env : Pario.ReqEnv) :
    (((Pario.handleChatCompletions env).cacheHeader = some "hit" ∨
      (Pario.handleChatCompletions env).cacheHeader = some "miss") ↔
      ((Pario.handleChatCompletions env).viaJSONError = false ∧
        (Pario.handleChatCompletions env).streamed = false)) ∧
    (((Pario.handleMessages env).cacheHeader = some "hit" ∨
      (Pario.handleMessages env).cacheHeader = some "miss") ↔
      ((Pario.handleMessages env).viaJSONError = false ∧
        (Pario.handleMessages env).streamed = false)) :=
  ⟨Pario.chat_header_iff env, Pario.messages_header_iff env⟩

/-- C10: whenever the Authorization header starts with "Bearer ", the
extracted key is the rest of that header regardless of x-api-key (the
x-api-key header is never consulted); in particular "Authorization:
Bearer " with an empty token alongside x-api-key "secret" yields an
empty key and the handler rejects with 401. -/
theorem bearer_takes_precedence :
    (∀ auth x y : String, "Bearer ".data.isPrefixOf auth.data = true →
      Pario.extractAPIKey auth x = String.mk (auth.data.drop 7) ∧
      Pario.extractAPIKey auth x = Pario.extractAPIKey auth y) ∧
    (Pario.handleChatCompletions
      { Pario.baseEnv with
          authorization := "Bearer "
          xApiKey := "secret" }).status = 401 := by
  constructor
  · intro auth x y h
    constructor <;> simp [Pario.extractAPIKey, h]
  · decide

/-- C10 witness: the empty-token Bearer header with a non-empty
x-api-key. -/
theorem bearer_takes_precedence_witness :
    ("Bearer ".data.isPrefixOf ("Bearer " : String).data = true) ∧
    Pario.extractAPIKey "Bearer " "secret" =
      String.mk (("Bearer " : String).data.drop 7) ∧
    Pario.extractAPIKey "Bearer " "secret" =
      Pario.extractAPIKey "Bearer " "other" :=
  ⟨by decide,
    (bearer_takes_precedence.1 "Bearer " "secret" "other" (by decide)).1,
    (bearer_takes_precedence.1 "Bearer " "secret" "other" (by decide)).2⟩

/-- C2: on the buffered chat route, when the final upstream status is
200 and its body decodes with usage present, the recorded UsageRecord
carries the model echoed by the provider (`cr.model`, not the
requested alias), the resolved session id, and the attribution labels
resolved from the X-Pario headers with the key_labels fallback
(`mkUsageRecord` spells those fields out). -/
theorem usage_record_fields (env : Pario.ReqEnv) (ck : String)
    (req : Pario.ChatReq) (routes : List (Option Pario.UpResult))
    (res : Pario.UpResult) (cr : Pario.ChatResp) (u : Pario.Usage)
    (hck : Pario.extractAPIKey env.authorization env.xApiKey = ck)
    (hm : env.method = "POST") (hk : ck ≠ "") (hb : env.bodyOk = true)
    (hd : env.decodedChat = some req) (hs : req.stream = false)
    (hmiss : env.cacheEnabled = false ∨ env.cacheGet = none)
    (hbud : env.enforcerEnabled = false ∨ env.budget = .ok)
    (hr : env.routes = some routes)
    (hrun : Pario.runAttempts routes none = some res)
    (h200 : res.statusCode = 200) (hdec : res.decodedChat = some cr)
    (hu : cr.usage = some u) :
    (Pario.handleChatCompletions env).usageRecorded =
      some (Pario.mkUsageRecord ck cr.model env u) ∧
    (Pario.mkUsageRecord ck cr.model env u).model = cr.model ∧
    (Pario.mkUsageRecord ck cr.model env u).sessionID = env.sessionID ∧
    ((Pario.mkUsageRecord ck cr.model env u).team,
      (Pario.mkUsageRecord ck cr.model env u).project,
      (Pario.mkUsageRecord ck cr.model env u).envLabel) =
      Pario.resolveLabels env ck := by
  subst hck
  refine ⟨?_, rfl, rfl, rfl⟩
  rw [Pario.handleChat_to_afterCache env req hm hk hb hd hmiss,
    Pario.afterCache_to_afterBudget env _ req hbud]
  unfold Pario.chatAfterBudget
  rw [hr]
  dsimp only
  rw [hs]
  simp only [Bool.false_eq_true, if_false]
  rw [hrun]
  dsimp only
  unfold Pario.chatRelay
  have h200' : (res.statusCode == 200) = true := by simp [h200]
  simp only [h200', if_true, hdec, hu]

/-- A concrete environment whose single route answers 200 with usage,
echoing model "gpt-4-0613" for requested alias "gpt-4". -/
def c2env : Pario.ReqEnv :=
  { Pario.baseEnv with
      authorization := "Bearer ck"
      xTeam := "t1"
      decodedChat := some ⟨"gpt-4", false⟩
      routes := some [some ⟨200, "ok", [],
        some ⟨"gpt-4-0613", some ⟨7, 5, 12⟩⟩, none⟩]
      sessionID := "sess_x" }

/-- C2 witness: the concrete 200-with-usage environment. -/
theorem usage_record_fields_witness :
    (Pario.handleChatCompletions c2env).usageRecorded =
      some (Pario.mkUsageRecord "ck" "gpt-4-0613" c2env ⟨7, 5, 12⟩) ∧
    (Pario.mkUsageRecord "ck" "gpt-4-0613" c2env ⟨7, 5, 12⟩).model = "gpt-4-0613" ∧
    (Pario.mkUsageRecord "ck" "gpt-4-0613" c2env ⟨7, 5, 12⟩).sessionID =
      c2env.sessionID ∧
    ((Pario.mkUsageRecord "ck" "gpt-4-0613" c2env ⟨7, 5, 12⟩).team,
      (Pario.mkUsageRecord "ck" "gpt-4-0613" c2env ⟨7, 5, 12⟩).project,
      (Pario.mkUsageRecord "ck" "gpt-4-0613" c2env ⟨7, 5, 12⟩).envLabel) =
      Pario.resolveLabels c2env "ck" :=
  usage_record_fields c2env "ck" ⟨"gpt-4", false⟩
    [some ⟨200, "ok", [], some ⟨"gpt-4-0613", some ⟨7, 5, 12⟩⟩, none⟩]
    ⟨200, "ok", [], some ⟨"gpt-4-0613", some ⟨7, 5, 12⟩⟩, none⟩
    ⟨"gpt-4-0613", some ⟨7, 5, 12⟩⟩ ⟨7, 5, 12⟩
    (by decide) rfl (by decide) rfl rfl rfl (Or.inr rfl) (Or.inr rfl) rfl
    (by decide) rfl rfl rfl

/-- C6 witness: three requests at times 0, 5, 100 with gap_timeout 10
give ids [s0, s0, s1]: the 5-apart pair shares an id, the 95-apart
pair does not. -/
theorem session_partition_witness :
    ∃ st' sids,
      Pario.processStream (fun n => "s" ++ toString n) Pario.initTrState "k" 10
        [0, 5, 100] = some (st', sids) ∧
      sids.length = 3 ∧
      (sids.getD 1 "" = sids.getD 0 "" ↔ (5 : Int) - 0 ≤ 10) ∧
      (sids.getD 2 "" = sids.getD 1 "" ↔ (100 : Int) - 5 ≤ 10) := by
  refine ⟨_, _, rfl, ?_⟩
  have h := session_partition (fun n => "s" ++ toString n)
    (by
      intro n h
      have hlen := congrArg String.length h
      rw [String.length_append] at hlen
      have h1 : ("s" : String).length = 1 := by decide
      have h0 : ("" : String).length = 0 := by decide
      omega) "k" 10 (by omega) [0, 5, 100]
    (by constructor <;> simp) _ _ rfl
  refine ⟨h.1, ?_, ?_⟩
  · simpa using h.2 0 (by simp)
  · simpa using h.2 1 (by simp)

/-- C7 counterexample: with two providers both named "p" (urls "u1"
then "u2") and an alias "fast" targeting "p", `Resolve` emits the
SECOND provider's descriptor, not the first-listed one the claim
predicts. -/
theorem router_first_wins_counterexample :
    Pario.Resolve Pario.dupCfg "fast" =
      some [⟨⟨"p", "u2", "k2"⟩, "m"⟩] ∧
    (⟨⟨"p", "u2", "k2"⟩, "m"⟩ : Pario.Route).provider.url ≠ "u1" := by
  exact ⟨by decide, by decide⟩

/-- C7 amended: the name-to-provider map keeps the LAST occurrence of
a duplicated provider name, so an alias target referencing that name
resolves to the last-listed provider's descriptor (URL and
credential). -/
theorem router_last_occurrence_wins (ps₁ : List Pario.ProviderConfig)
    (p : Pario.ProviderConfig) (ps₂ : List Pario.ProviderConfig)
    (hfresh : ∀ q ∈ ps₂, q.name ≠ p.name)
    (aliasModel tmodel : String) (htm : tmodel ≠ "") :
    Pario.providerIndex (ps₁ ++ p :: ps₂) p.name = some p ∧
    Pario.Resolve ⟨ps₁ ++ p :: ps₂, [⟨aliasModel, [⟨p.name, tmodel⟩]⟩]⟩ aliasModel =
      some [⟨p, tmodel⟩] := by
  have hidx := Pario.providerIndex_append_last ps₁ p ps₂ hfresh
  refine ⟨hidx, ?_⟩
  unfold Pario.Resolve
  have hne : ((ps₁ ++ p :: ps₂).isEmpty) = false := by
    simp [List.isEmpty_iff]
  rw [hne]
  simp only [Bool.false_eq_true, if_false]
  unfold Pario.resolveRoutes
  simp only [beq_self_eq_true, if_true]
  unfold Pario.targetRoutes
  rw [hidx]
  have htm' : (tmodel == "") = false := beq_eq_false_iff_ne.mpr htm
  simp [htm', Pario.targetRoutes]

/-- C7 amended, witness: instantiated at the duplicate-name
configuration `dupCfg`. -/
theorem router_last_occurrence_witness :
    Pario.providerIndex
        ([⟨"p", "u1", "k1"⟩] ++ (⟨"p", "u2", "k2"⟩ : Pario.ProviderConfig) :: [])
        "p" = some ⟨"p", "u2", "k2"⟩ ∧
    Pario.Resolve ⟨[⟨"p", "u1", "k1"⟩] ++ (⟨"p", "u2", "k2"⟩ : Pario.ProviderConfig) :: [],
        [⟨"fast", [⟨"p", "m"⟩]⟩]⟩ "fast" = some [⟨⟨"p", "u2", "k2"⟩, "m"⟩] :=
  router_last_occurrence_wins [⟨"p", "u1", "k1"⟩] ⟨"p", "u2", "k2"⟩ []
    (by simp) "fast" "m" (by decide)

/-- C4: after `Put` of (hash, model, bytes) at time t0 with configured
TTL d, a `Get` of the same (hash, model) at time t is a hit returning
the stored bytes exactly when t - t0 ≤ d (the boundary t - t0 = d
included), and a miss when t - t0 > d. -/
theorem cache_ttl_boundary (st : Pario.CacheState)
    (promptHash model bytes : String) (t0 d t : Int) :
    ((Pario.CacheState.Put st promptHash model bytes t0 d).Get promptHash model t).1 =
      (if t - t0 ≤ d then some bytes else none) := by
  have hfind :
      ((Pario.CacheState.Put st promptHash model bytes t0 d).lookup promptHash model) =
        some ⟨bytes, t0, d⟩ := by
    unfold Pario.CacheState.Put Pario.CacheState.lookup
    rw [List.find?_append]
    have hnone :
        (st.entries.filter
            (fun e => !(e.1.1 == promptHash && e.1.2 == model))).find?
          (fun e => e.1.1 == promptHash && e.1.2 == model) = none := by
      rw [List.find?_eq_none]
      intro e he
      have := (List.mem_filter.mp he).2
      simp only [Bool.not_eq_true'] at this
      simp [this]
    rw [hnone]
    rw [List.find?_cons_of_pos _ (by simp)]
    rfl
  unfold Pario.CacheState.Get
  rw [hfind]
  by_cases hle : t - t0 ≤ d
  · have : ¬ t - t0 > d := by omega
    simp [this, hle]
  · have : t - t0 > d := by omega
    simp [this, hle]

/-- C5: with an error-free usage store, `Check` returns
budget-exceeded iff some policy whose api-key pattern is "*" or equal
to the key, and whose model filter is empty or equal to the model, has
summed total_tokens since its period start at least max_tokens;
otherwise it returns ok. -/
theorem budget_check_iff (policies : List Pario.BudgetPolicy)
    (store : List Pario.URec) (now : Pario.DateTime) (apiKey model : String) :
    (Pario.Check policies store now apiKey model = .budgetExceeded ↔
      ∃ p ∈ policies, (p.apiKey = "*" ∨ p.apiKey = apiKey) ∧
        (p.model = "" ∨ p.model = model) ∧
        Pario.claimUsed store now apiKey p ≥ p.maxTokens) ∧
    (Pario.Check policies store now apiKey model = .ok ↔
      ¬ ∃ p ∈ policies, (p.apiKey = "*" ∨ p.apiKey = apiKey) ∧
        (p.model = "" ∨ p.model = model) ∧
        Pario.claimUsed store now apiKey p ≥ p.maxTokens) := by
  have hmain : Pario.Check policies store now apiKey model = .budgetExceeded ↔
      ∃ p ∈ policies, (p.apiKey = "*" ∨ p.apiKey = apiKey) ∧
        (p.model = "" ∨ p.model = model) ∧
        Pario.claimUsed store now apiKey p ≥ p.maxTokens := by
    unfold Pario.Check
    rw [Pario.checkLoop_exceeded_iff]
    constructor
    · rintro ⟨p, hp, hge⟩
      have hmem := List.mem_filter.mp hp
      refine ⟨p, hmem.1, ?_, ?_, ?_⟩
      · rcases Bool.and_eq_true .. ▸ hmem.2 with ⟨h1, _⟩
        rcases Bool.or_eq_true .. ▸ h1 with h | h
        · exact Or.inl (by simpa [beq_iff_eq] using h)
        · exact Or.inr (by simpa [beq_iff_eq] using h)
      · rcases Bool.and_eq_true .. ▸ hmem.2 with ⟨_, h2⟩
        rcases Bool.or_eq_true .. ▸ h2 with h | h
        · exact Or.inl (by simpa [beq_iff_eq] using h)
        · exact Or.inr (by simpa [beq_iff_eq] using h)
      · rwa [Pario.policyUsed_eq_claimUsed] at hge
    · rintro ⟨p, hp, hkey, hmodel, hge⟩
      refine ⟨p, List.mem_filter.mpr ⟨hp, ?_⟩, ?_⟩
      · have h1 : (p.apiKey == "*" || p.apiKey == apiKey) = true := by
          rcases hkey with h | h <;> simp [h]
        have h2 : (p.model == "" || p.model == model) = true := by
          rcases hmodel with h | h <;> simp [h]
        simp [h1, h2]
      · rwa [Pario.policyUsed_eq_claimUsed]
  refine ⟨hmain, ?_⟩
  rw [← hmain]
  cases h : Pario.Check policies store now apiKey model <;> simp [h]
